import Mathlib

/-!
# Verification of the Verona parser type-inference pass (`src/parser/infer.cc`)

This file gives a shallow embedding of the inference visitor in
`src/parser/infer.cc` and proves properties of it.  The visitor's
collaborators that live outside the translated source (the subtype solver,
the lookup engine and the `Pass` traversal framework) are represented by
oracle functions or by definitions modelled from the specification; each
such definition says so in its doc comment.  Everything else is translated
directly from the C++ source.
-/

namespace Verona

/-- Interned identifiers: the identifier interner maps textual names to
location tokens that compare equal iff the underlying strings are equal,
so a `Location` is represented by its string. -/
abbrev Location := String

/-- AST node kinds, as used by `kind()` dispatch in the visitor
(`Kind::Var`, `Kind::Oftype`, `Kind::Assign`, `Kind::Lambda`,
`Kind::LookupRef`, `Kind::TupleType`, ...). -/
inductive Kind where
  | kLet
  | kVar
  | oftypeK
  | assignK
  | lambdaK
  | refK
  | selectK
  | intK
  | floatK
  | boolK
  | tupleK
  | throwK
  | freeK
  | lookupRefK
  | inferTypeK
  | classK
  | typeParamK
  | fieldK
  | paramK
deriving DecidableEq

/-- The type language of the pass: nominal references, intersections,
unions, tuples, function types, throw types, capabilities and inference
variables (spec §3.1; the node model itself is upstream of `infer.cc`). -/
inductive Ty where
  | typeRef (names : List Location)
  | isect (tys : List Ty)
  | unionT (tys : List Ty)
  | tupleT (tys : List Ty)
  | functionT (left : Option Ty) (right : Ty)
  | throwT (t : Ty)
  | immT
  | mutT
  | isoT
  | inferT (id : Nat)

/-- A `FunctionType` node as built by `Infer::call_type`: `left` is the
argument side (absent for a nullary call), `right` the result. -/
structure FnTy where
  left : Option Ty
  right : Ty

/-- View of a `FnTy` as a type, used when the function type is passed to
the solver (`subtype(find, call)`). -/
def FnTy.toTy (f : FnTy) : Ty := .functionT f.left f.right

/-- The result of a lookup (`lookup.typeref` / `lookup.member`): a node
with a `kind()` and its reading as a type when it is passed to the
solver. -/
structure Found where
  kind : Kind
  ty : Ty

/-- A type parameter as consulted by `Infer::post(LookupRef&)`: only its
upper bound is used. -/
structure TypeParam where
  upper : Ty

/-- The fields of a local (`Let` or `Var` node) the visitor reads and
writes: its kind, its type, and its `assigned` flag (spec §3.2). -/
structure LocalInfo where
  kind : Kind
  ty : Ty
  assigned : Bool

/-- Dispatch annotation on a call site.  Modelled from the spec: the
decorated AST marks every call site as static or dynamic dispatch; in the
source the rewrite is only a TODO comment, so no code writes this field. -/
inductive Dispatch where
  | dynamicD
  | staticD
deriving DecidableEq

/-- A `Select` node: its `typeref`'s list of type names, the optional
`expr` and `args` operands (locations of the locals holding them, the AST
being in three-address form), and the spec-modelled dispatch
annotation. -/
structure Select where
  typenames : List Location
  expr : Option Location
  args : Option Location
  dispatch : Option Dispatch
deriving DecidableEq

/-- Observable events of the visitor: visitor diagnostics (`error()`),
constraints submitted to the solver (`subtype(a, b)`), queries to
`lookup.member`, `subtype.dynamic` and `lookup.typeref`, and node
visits. -/
inductive Ev where
  | err (msg : String)
  | constraintC (a b : Ty)
  | memberQ (receiver : Ty) (name : Location)
  | dynamicQ (cands : List Found) (call : FnTy)
  | typerefQ (names : List Location)
  | visit (k : Kind)

/-- Modelled from the spec: `kindname` (defined with the AST node model,
outside the translated source) renders a node kind for diagnostics. -/
def kindname : Kind → String
  | .kLet => "let"
  | .kVar => "var"
  | .oftypeK => "oftype"
  | .assignK => "assign"
  | .lambdaK => "lambda"
  | .refK => "ref"
  | .selectK => "select"
  | .intK => "int"
  | .floatK => "float"
  | .boolK => "bool"
  | .tupleK => "tuple"
  | .throwK => "throw"
  | .freeK => "free"
  | .lookupRefK => "lookupref"
  | .inferTypeK => "infertype"
  | .classK => "class"
  | .typeParamK => "typeparam"
  | .fieldK => "field"
  | .paramK => "param"

/-- The external collaborators of the visitor, treated as oracles: the
lookup engine's `member` and `typeref` operations (the latter already
closed over the current scope `symbols()`), the solver's
`subtype.dynamic` verdict, and the verdict of a plain `subtype` call
(whose submission is recorded as a `constraintC` event). -/
structure Env where
  member : Ty → Location → List Found
  dynamicOk : List Found → FnTy → Bool
  typerefL : List Location → Option Found
  sub : Ty → Ty → Bool

/-- Translation of `Infer::make_constant_type`: build the single-segment `TypeRef` for
`name`, fail (`none`) if `lookup.typeref` cannot resolve it, otherwise
return the intersection of that reference with `imm`. -/
def make_constant_type (typerefL : List Location → Option Found) (name : Location) :
    Option Ty :=
  if (typerefL [name]).isSome then
    some (.isect [.typeRef [name], .immT])
  else
    none

/-- Translation of `Infer::post(Int&)`: emit `g(lhs).type <: Integer & imm`, or the
"No type Integer in scope." diagnostic when the lookup fails. -/
def postInt (typerefL : List Location → Option Found) (lhsTy : Ty) : List Ev :=
  match make_constant_type typerefL "Integer" with
  | none => [.err "No type Integer in scope."]
  | some t => [.constraintC lhsTy t]

/-- Translation of `Infer::post(Float&)`: emit `g(lhs).type <: Float & imm`, or the
"No type Float in scope." diagnostic when the lookup fails. -/
def postFloat (typerefL : List Location → Option Found) (lhsTy : Ty) : List Ev :=
  match make_constant_type typerefL "Float" with
  | none => [.err "No type Float in scope."]
  | some t => [.constraintC lhsTy t]

/-- Translation of `Infer::post(Bool&)`: emit `Bool & imm <: g(lhs).type` (the reversed
direction), or the "No type Bool in scope." diagnostic. -/
def postBool (typerefL : List Location → Option Found) (lhsTy : Ty) : List Ev :=
  match make_constant_type typerefL "Bool" with
  | none => [.err "No type Bool in scope."]
  | some t => [.constraintC t lhsTy]

/-- Translation of `Infer::post(Free&)`: error when the captured local has not been
assigned. -/
def postFree (l : LocalInfo) : List Ev :=
  if !l.assigned then
    [.err "Free variables can't be captured if they haven't been assigned to."]
  else
    []

/-- Translation of `Infer::post(LookupRef&)`: for each pair of the substitution whose
weak reference to the type parameter is still live (`wparam.lock()`
succeeds), submit `argument <: parameter.upper`. -/
def postLookupRef (subs : List (Option TypeParam × Ty)) : List Ev :=
  subs.foldl
    (fun acc p =>
      match p.1 with
      | some param => acc ++ [.constraintC p.2 param.upper]
      | none => acc)
    []

/-- Translation of `Infer::post(Ref&)`: exempt positions (`Oftype` parent, left child of
an `Assign`) return early; the right side of an `Assign` flows into the
left local's type; a `Lambda` parent makes the ref a return value checked
against the result type; finally any non-exempt position errors when the
local is unassigned. -/
def postRef (env : Env) (parentKind : Kind) (isAssignLeft : Bool)
    (assignLhsTy lambdaResult : Ty) (l : LocalInfo) : List Ev :=
  if parentKind = .oftypeK then
    []
  else if parentKind = .assignK ∧ isAssignLeft then
    []
  else
    let evs :=
      if parentKind = .assignK then
        [Ev.constraintC l.ty assignLhsTy]
      else if parentKind = .lambdaK then
        [Ev.constraintC l.ty lambdaResult] ++
          (if !env.sub l.ty lambdaResult then
            [Ev.err "The return value is not a subtype of the result type."]
          else
            [])
      else
        []
    evs ++
      (if !l.assigned then [Ev.err "Variable used before assignment"] else [])

/-- Translation of `Infer::post(Oftype&)`: an ascription submits
`g(expr).type <: type`. -/
def postOftype (exprTy ascribed : Ty) : List Ev :=
  [.constraintC exprTy ascribed]

/-- Modelled from the spec: `dnf::throwtype` (defined in `dnf.cc`, outside
the translated source) wraps a type in `ThrowType`, distributing over
unions (`throw (A | B) = throw A | throw B`). -/
def throwtype : Ty → Ty
  | .unionT ts => .unionT (ts.map Ty.throwT)
  | t => .throwT t

/-- Translation of `Infer::post(Throw&)`: submit
`throwtype(g(expr).type) <: enclosing lambda result`. -/
def postThrow (exprTy lambdaResult : Ty) : List Ev :=
  [.constraintC (throwtype exprTy) lambdaResult]

/-- Translation of `Infer::post(Assign&)`: an unassigned local or a `Var` is (re)marked
assigned; a `Let` that is already assigned is an error and is left
unchanged. -/
def postAssign (l : LocalInfo) : LocalInfo × List Ev :=
  if !l.assigned || l.kind = .kVar then
    ({ l with assigned := true }, [])
  else
    (l, [.err "This expression can't be assigned"])

/-- Translation of `Infer::post(Tuple&)`: the type assigned to the enclosing assignment's
left local — a `TupleType` of the component locals' types. -/
def postTuple (g : Location → Ty) (elems : List Location) : Ty :=
  .tupleT (elems.map g)

/-- Translation of `Infer::unpack_type`: append `fr` to the accumulated tuple components,
flattening it when it is itself a `TupleType`; a missing type contributes
nothing. -/
def unpack_type (toTys : List Ty) (fr : Option Ty) : List Ty :=
  match fr with
  | none => toTys
  | some (.tupleT tys) => toTys ++ tys
  | some t => toTys ++ [t]

/-- Translation of `Infer::call_type`: build the call's function type from the locals
named by the `expr`/`args` operands: a single present operand supplies the
whole argument side, two present operands are concatenated into a
`TupleType` via `unpack_type`, and the result side is always the type of
the enclosing assignment's left local. -/
def call_type (g : Location → Ty) (lhsTy : Ty) (left right : Option Location) :
    FnTy :=
  match left, right with
  | some l, none => { left := some (g l), right := lhsTy }
  | none, some r => { left := some (g r), right := lhsTy }
  | some l, some r =>
      { left := some (.tupleT (unpack_type (unpack_type [] (some (g l))) (some (g r)))),
        right := lhsTy }
  | none, none => { left := none, right := lhsTy }

/-- Modelled from the spec: `receiver_type` (defined with the subtype
solver, outside the translated source) projects the first component of
the argument tuple — the `self` slot. -/
def receiver_type : Ty → Ty
  | .tupleT (t :: _) => t
  | t => t

/-- The static-dispatch tail of `Infer::post(Select&)`: `lookup.typeref`
on the select's typeref; when nothing is found record "Couldn't find this
function." and return; when the result is not a `LookupRef` record
"Expected a function but found ..." and return; otherwise submit
`find <: call` (the static-dispatch rewrite of the node is a TODO in the
source). -/
def staticSelect (env : Env) (tn : List Location) (call : FnTy) : List Ev :=
  match env.typerefL tn with
  | none => [Ev.typerefQ tn, Ev.err "Couldn't find this function."]
  | some find =>
      if find.kind = .lookupRefK then
        [Ev.typerefQ tn, Ev.constraintC find.ty call.toTy]
      else
        [Ev.typerefQ tn,
         Ev.err ("Expected a function but found " ++ kindname find.kind)]

/-- Translation of `Infer::post(Select&)`: build the call type; when the argument side
exists and the typeref is a single unqualified name, query
`lookup.member` on the receiver and ask `subtype.dynamic` — on success
return (the dynamic-dispatch rewrite is a TODO in the source).  Otherwise
fall through to the static-dispatch tail.  The node is returned as the
traversal leaves it. -/
def postSelect (env : Env) (g : Location → Ty) (lhsTy : Ty) (sel : Select) :
    Select × List Ev :=
  let call := call_type g lhsTy sel.expr sel.args
  let dynState :=
    match call.left, sel.typenames with
    | some cl, [name] =>
        let receiver := receiver_type cl
        let find := env.member receiver name
        ([Ev.memberQ receiver name, Ev.dynamicQ find call], env.dynamicOk find call)
    | _, _ => ([], false)
  if dynState.2 then
    (sel, dynState.1)
  else
    (sel, dynState.1 ++ staticSelect env sel.typenames call)

/-- Modelled from the spec: `function_type` (defined in `rewrite.h`,
outside the translated source) builds a lambda's own function type; the
lambdas reaching the constrained cases are parameterless, so only the
declared result participates. -/
def function_type (result : Ty) : Ty := .functionT none result

/-- Translation of `Infer::post(Lambda&)`: in an `Assign` parent, submit
`function_type(lambda) <: g(lhs).type`; in a `Field` parent, check the
initialiser against the field type; a `Param` parent and all other
parents emit nothing. -/
def postLambda (env : Env) (parentKind : Kind) (lhsTy fieldTy result : Ty) :
    List Ev :=
  match parentKind with
  | .assignK => [.constraintC (function_type result) lhsTy]
  | .paramK => []
  | .fieldK =>
      [Ev.constraintC result fieldTy] ++
        (if !env.sub result fieldTy then
          [Ev.err "The field initialiser is not a subtype of the field type."]
        else
          [])
  | _ => []

mutual

/-- Modelled from the spec: the AST consumed by the pass, normalized to
three-address form — operands of `Select`, `Tuple`, `Oftype` and `Throw`
are locations of locals, an `Assign`'s left side is a `Ref`, and a
`Lambda` body is a node sequence.  `LookupRef` nodes appear where the
resolver placed them. -/
inductive Ast where
  | assignA (leftLoc : Location) (right : Ast)
  | refA (name : Location)
  | intA
  | floatA
  | boolA
  | oftypeA (exprLoc : Location) (ty : Ty)
  | selectA (sel : Select)
  | lambdaA (result : Ty) (body : AstList)
  | throwA (exprLoc : Location)
  | freeA (name : Location)
  | tupleA (elems : List Location)
  | lookupRefA (subs : List (Option TypeParam × Ty))

/-- A sequence of sibling AST nodes (used for `Lambda` bodies). -/
inductive AstList where
  | anil
  | acons (a : Ast) (rest : AstList)

end

/-- Modelled from the spec: the context the `Pass` framework keeps on its
stack — the node's parent kind, whether the node is the left child of an
`Assign`, the location of the nearest enclosing `Assign`'s left local
(`parent<Assign>()->left->location`), and the nearest enclosing `Lambda`'s
result type. -/
structure Ctx where
  parentKind : Kind
  isAssignLeft : Bool
  assignLhs : Option Location
  lambdaResult : Ty

/-- The type of the enclosing assignment's left local, `g(lhs()).type`.
Three-address form guarantees an enclosing `Assign` wherever a handler
consults this, so the `none` default is never reached from the
traversal. -/
def ctxLhsTy (ctx : Ctx) (L : Location → LocalInfo) : Ty :=
  match ctx.assignLhs with
  | some a => (L a).ty
  | none => .inferT 0

/-- Pointwise update of the symbol table's view of the locals. -/
def upd (L : Location → LocalInfo) (at_ : Location) (l : LocalInfo) :
    Location → LocalInfo :=
  fun loc => if loc = at_ then l else L loc

mutual

/-- Modelled from the spec: the post-order traversal of the `Pass`
framework driving the `Infer` visitor — children are visited first, then
the node's `post` handler runs; each visited node also contributes a
`visit` marker.  The handlers themselves are the translations above. -/
def inferA (env : Env) (ctx : Ctx) (L : Location → LocalInfo) :
    Ast → (Location → LocalInfo) × List Ev
  | .assignA leftLoc right =>
      let lEvs :=
        [Ev.visit .refK] ++
          postRef env .assignK true (L leftLoc).ty ctx.lambdaResult (L leftLoc)
      let ctx1 : Ctx :=
        { parentKind := .assignK, isAssignLeft := false,
          assignLhs := some leftLoc, lambdaResult := ctx.lambdaResult }
      let res := inferA env ctx1 L right
      let asn := postAssign (res.1 leftLoc)
      (upd res.1 leftLoc asn.1, lEvs ++ res.2 ++ [Ev.visit .assignK] ++ asn.2)
  | .refA name =>
      (L,
        [Ev.visit .refK] ++
          postRef env ctx.parentKind ctx.isAssignLeft (ctxLhsTy ctx L)
            ctx.lambdaResult (L name))
  | .intA => (L, [Ev.visit .intK] ++ postInt env.typerefL (ctxLhsTy ctx L))
  | .floatA => (L, [Ev.visit .floatK] ++ postFloat env.typerefL (ctxLhsTy ctx L))
  | .boolA => (L, [Ev.visit .boolK] ++ postBool env.typerefL (ctxLhsTy ctx L))
  | .oftypeA exprLoc ty =>
      (L,
        [Ev.visit .refK] ++
          postRef env .oftypeK false (ctxLhsTy ctx L) ctx.lambdaResult (L exprLoc) ++
          [Ev.visit .oftypeK] ++ postOftype (L exprLoc).ty ty)
  | .selectA sel =>
      (L,
        [Ev.visit .selectK] ++
          (postSelect env (fun loc => (L loc).ty) (ctxLhsTy ctx L) sel).2)
  | .lambdaA result body =>
      let ctx1 : Ctx :=
        { parentKind := .lambdaK, isAssignLeft := false,
          assignLhs := ctx.assignLhs, lambdaResult := result }
      let res := inferL env ctx1 L body
      (res.1,
        res.2 ++ [Ev.visit .lambdaK] ++
          postLambda env ctx.parentKind (ctxLhsTy ctx res.1) (.inferT 0) result)
  | .throwA exprLoc =>
      (L,
        [Ev.visit .refK] ++
          postRef env .throwK false (ctxLhsTy ctx L) ctx.lambdaResult (L exprLoc) ++
          [Ev.visit .throwK] ++ postThrow (L exprLoc).ty ctx.lambdaResult)
  | .freeA name => (L, [Ev.visit .freeK] ++ postFree (L name))
  | .tupleA elems =>
      let refEvs :=
        elems.flatMap fun e =>
          [Ev.visit .refK] ++
            postRef env .tupleK false (ctxLhsTy ctx L) ctx.lambdaResult (L e)
      let t := postTuple (fun loc => (L loc).ty) elems
      let L1 :=
        match ctx.assignLhs with
        | some a => upd L a { L a with ty := t }
        | none => L
      (L1, refEvs ++ [Ev.visit .tupleK])
  | .lookupRefA subs => (L, [Ev.visit .lookupRefK] ++ postLookupRef subs)

/-- Traversal of a node sequence, threading the locals map left to
right. -/
def inferL (env : Env) (ctx : Ctx) (L : Location → LocalInfo) :
    AstList → (Location → LocalInfo) × List Ev
  | .anil => (L, [])
  | .acons a rest =>
      let res := inferA env ctx L a
      let res2 := inferL env ctx res.1 rest
      (res2.1, res.2 ++ res2.2)

end

mutual

/-- The number of nodes the traversal visits in `a` (counting the `Ref`
nodes standing for operand locations). -/
def astSize : Ast → Nat
  | .assignA _ right => 2 + astSize right
  | .refA _ => 1
  | .intA => 1
  | .floatA => 1
  | .boolA => 1
  | .oftypeA _ _ => 2
  | .selectA _ => 1
  | .lambdaA _ body => 1 + astListSize body
  | .throwA _ => 2
  | .freeA _ => 1
  | .tupleA elems => 1 + elems.length
  | .lookupRefA _ => 1

/-- The number of nodes in a node sequence. -/
def astListSize : AstList → Nat
  | .anil => 0
  | .acons a rest => astSize a + astListSize rest

end

/-- The visitor diagnostics recorded in a trace. -/
def errorsOf (tr : List Ev) : List String :=
  tr.filterMap fun e =>
    match e with
    | .err m => some m
    | _ => none

/-- The constraints submitted to the solver in a trace. -/
def constraintsOf (tr : List Ev) : List (Ty × Ty) :=
  tr.filterMap fun e =>
    match e with
    | .constraintC a b => some (a, b)
    | _ => none

/-- Modelled from the spec: the solver accumulates a diagnostic exactly
for each submitted constraint it rejects, and is consistent iff it
recorded none. -/
def solverErrors (env : Env) (tr : List Ev) : List (Ty × Ty) :=
  (constraintsOf tr).filter fun c => !env.sub c.1 c.2

/-- The number of `visit` markers in a trace. -/
def visitCount (tr : List Ev) : Nat :=
  tr.countP fun e =>
    match e with
    | .visit _ => true
    | _ => false

/-- The initial traversal context at the AST root. -/
def initCtx : Ctx :=
  { parentKind := .classK, isAssignLeft := false, assignLhs := none,
    lambdaResult := .inferT 0 }

/-- The full event trace of one run of the `Infer` visitor. -/
def inferTrace (env : Env) (L : Location → LocalInfo) (ast : Ast) : List Ev :=
  (inferA env initCtx L ast).2

/-- Translation of `infer::run`: `return r && r.subtype` — true iff the visitor recorded
no errors and the solver recorded no errors.  (That a `Pass` converts to
`true` iff it recorded no errors is modelled from the spec, the `Pass`
framework being outside the translated source.) -/
def run (env : Env) (L : Location → LocalInfo) (ast : Ast) : Bool :=
  (errorsOf (inferTrace env L ast)).isEmpty &&
    (solverErrors env (inferTrace env L ast)).isEmpty

/-- Translation of `WF::post(InferType&)`: the body is empty — the
`"Unresolved type."` diagnostic is commented out in the source — and `WF`
declares no other handler, so every node kind contributes nothing. -/
def wfPost (k : Kind) : List Ev :=
  match k with
  | .inferTypeK => []
  | _ => []

/-- Modelled from the spec: the `WF` pass dispatches only on node kinds,
so an AST is abstracted to its post-order node-kind sequence; the trace is
the concatenation of the handlers' events. -/
def wfTrace (nodes : List Kind) : List Ev :=
  nodes.flatMap wfPost

/-- Translation of `infer::wellformed`: `return wf << ast` — true iff the traversal
recorded no errors (the `Pass` boolean conversion modelled from the
spec). -/
def wellformed (nodes : List Kind) : Bool :=
  (errorsOf (wfTrace nodes)).isEmpty

/-- The components a type contributes to a concatenated argument tuple:
a `TupleType` is flattened into its member types, any other type stands
for itself (the flattening `unpack_type` performs). -/
def tupleComponents : Ty → List Ty
  | .tupleT tys => tys
  | t => [t]

/-- A lookup oracle that resolves every type reference (a fixture for
instantiating hypotheses at concrete inputs). -/
def allFoundL : List Location → Option Found :=
  fun _ => some ⟨.classK, .immT⟩

/-- A lookup oracle that resolves nothing (a fixture). -/
def noneFoundL : List Location → Option Found :=
  fun _ => none

/-- An oracle environment in which `subtype.dynamic` always succeeds
(a fixture). -/
def envDyn : Env :=
  { member := fun _ _ => [], dynamicOk := fun _ _ => true,
    typerefL := noneFoundL, sub := fun _ _ => true }

/-- An oracle environment in which `subtype.dynamic` always fails and no
type reference resolves (a fixture). -/
def envStat : Env :=
  { member := fun _ _ => [], dynamicOk := fun _ _ => false,
    typerefL := noneFoundL, sub := fun _ _ => true }

/-- A locals typing in which every local has type `imm` (a fixture). -/
def gImm : Location → Ty := fun _ => .immT

/-- A `Select` node calling the single unqualified name `f` on one
operand local `x` (a fixture). -/
def selFx : Select :=
  { typenames := ["f"], expr := some "x", args := none, dispatch := none }

/-- Lemma: `unpack_type` appends exactly the flattened components of the
unpacked type. -/
theorem unpack_type_eq (toTys : List Ty) (t : Ty) :
    unpack_type toTys (some t) = toTys ++ tupleComponents t := by
  cases t <;> rfl

/-- C3: for `Int` and `Float` literals the visitor places the literal
type (`Integer & imm`, `Float & imm`) as an upper bound on the enclosing
assignment's left local, `g(lhs).type <: t`; for `Bool` literals the
direction is reversed, `t <: g(lhs).type`, a lower bound. -/
theorem C3_literal_bound_directions (typerefL : List Location → Option Found)
    (lhsTy : Ty)
    (hInt : (typerefL ["Integer"]).isSome = true)
    (hFloat : (typerefL ["Float"]).isSome = true)
    (hBool : (typerefL ["Bool"]).isSome = true) :
    postInt typerefL lhsTy =
      [Ev.constraintC lhsTy (Ty.isect [Ty.typeRef ["Integer"], Ty.immT])]
    ∧ postFloat typerefL lhsTy =
      [Ev.constraintC lhsTy (Ty.isect [Ty.typeRef ["Float"], Ty.immT])]
    ∧ postBool typerefL lhsTy =
      [Ev.constraintC (Ty.isect [Ty.typeRef ["Bool"], Ty.immT]) lhsTy] := by
  simp [postInt, postFloat, postBool, make_constant_type, hInt, hFloat, hBool]

/-- Witness for C3 at a lookup oracle that resolves everything. -/
theorem C3_literal_bound_directions_witness :
    (allFoundL ["Integer"]).isSome = true
    ∧ postInt allFoundL (Ty.inferT 1) =
      [Ev.constraintC (Ty.inferT 1) (Ty.isect [Ty.typeRef ["Integer"], Ty.immT])]
    ∧ postBool allFoundL (Ty.inferT 1) =
      [Ev.constraintC (Ty.isect [Ty.typeRef ["Bool"], Ty.immT]) (Ty.inferT 1)] :=
  ⟨rfl, (C3_literal_bound_directions allFoundL (Ty.inferT 1) rfl rfl rfl).1,
    (C3_literal_bound_directions allFoundL (Ty.inferT 1) rfl rfl rfl).2.2⟩

/-- C10: when the nominal type of a literal fails lookup, the handler
records exactly the one "No type ... in scope." diagnostic and submits no
constraint, leaving the solver state and the left local untouched. -/
theorem C10_literal_lookup_failure (typerefL : List Location → Option Found)
    (lhsTy : Ty)
    (hInt : typerefL ["Integer"] = none)
    (hFloat : typerefL ["Float"] = none)
    (hBool : typerefL ["Bool"] = none) :
    postInt typerefL lhsTy = [Ev.err "No type Integer in scope."]
    ∧ postFloat typerefL lhsTy = [Ev.err "No type Float in scope."]
    ∧ postBool typerefL lhsTy = [Ev.err "No type Bool in scope."]
    ∧ constraintsOf (postInt typerefL lhsTy) = []
    ∧ constraintsOf (postFloat typerefL lhsTy) = []
    ∧ constraintsOf (postBool typerefL lhsTy) = [] := by
  simp [postInt, postFloat, postBool, make_constant_type, hInt, hFloat, hBool,
    constraintsOf]

/-- Witness for C10 at the empty lookup oracle. -/
theorem C10_literal_lookup_failure_witness :
    noneFoundL ["Integer"] = none
    ∧ postInt noneFoundL (Ty.inferT 1) = [Ev.err "No type Integer in scope."]
    ∧ constraintsOf (postInt noneFoundL (Ty.inferT 1)) = [] :=
  ⟨rfl, (C10_literal_lookup_failure noneFoundL (Ty.inferT 1) rfl rfl rfl).1,
    (C10_literal_lookup_failure noneFoundL (Ty.inferT 1) rfl rfl rfl).2.2.2.1⟩

/-- C5: an `Assign` whose left local is an already-assigned `Let` records
the reassignment diagnostic and leaves the local unchanged; a `Var`, or a
`Let` not yet assigned, is marked assigned with no diagnostic. -/
theorem C5_assign_marking (l : LocalInfo) :
    (l.kind = .kLet → l.assigned = true →
      postAssign l = (l, [Ev.err "This expression can't be assigned"]))
    ∧ (l.kind = .kVar ∨ l.assigned = false →
      postAssign l = ({ l with assigned := true }, [])) := by
  constructor
  · intro hk ha
    simp [postAssign, hk, ha]
  · intro h
    rcases h with hk | ha
    · simp [postAssign, hk]
    · simp [postAssign, ha]

/-- Witness for C5: an assigned `Let` errors; an assigned `Var` and an
unassigned `Let` are (re)marked without error. -/
theorem C5_assign_marking_witness :
    postAssign ⟨.kLet, .immT, true⟩ =
      (⟨.kLet, .immT, true⟩, [Ev.err "This expression can't be assigned"])
    ∧ postAssign ⟨.kVar, .immT, true⟩ = (⟨.kVar, .immT, true⟩, [])
    ∧ postAssign ⟨.kLet, .immT, false⟩ = (⟨.kLet, .immT, true⟩, []) :=
  ⟨(C5_assign_marking ⟨.kLet, .immT, true⟩).1 rfl rfl,
    (C5_assign_marking ⟨.kVar, .immT, true⟩).2 (Or.inl rfl),
    (C5_assign_marking ⟨.kLet, .immT, false⟩).2 (Or.inr rfl)⟩

/-- C7: the call's function type is `(argtypes) → g(lhs).type`: a single
present operand supplies the whole argument side, two present operands
are concatenated into a `TupleType` with `TupleType` operands flattened
into their components, and the result side is always the left local's
type. -/
theorem C7_call_type_shape (g : Location → Ty) (lhsTy : Ty) :
    (∀ l, call_type g lhsTy (some l) none = ⟨some (g l), lhsTy⟩)
    ∧ (∀ r, call_type g lhsTy none (some r) = ⟨some (g r), lhsTy⟩)
    ∧ (∀ l r, call_type g lhsTy (some l) (some r) =
        ⟨some (.tupleT (tupleComponents (g l) ++ tupleComponents (g r))), lhsTy⟩)
    ∧ (∀ e a, (call_type g lhsTy e a).right = lhsTy) := by
  refine ⟨fun l => rfl, fun r => rfl, fun l r => ?_, fun e a => ?_⟩
  · simp [call_type, unpack_type_eq]
  · cases e <;> cases a <;> rfl

/-- The fold in `postLookupRef`, for an arbitrary accumulator. -/
theorem postLookupRef_foldl (subs : List (Option TypeParam × Ty)) :
    ∀ acc : List Ev,
      subs.foldl
        (fun acc p =>
          match p.1 with
          | some param => acc ++ [.constraintC p.2 param.upper]
          | none => acc)
        acc
      = acc ++
          subs.filterMap (fun p => p.1.map fun param => Ev.constraintC p.2 param.upper) := by
  induction subs with
  | nil => simp
  | cons p rest ih =>
      intro acc
      cases h : p.1 <;> simp [h, ih]

/-- C8: `post(LookupRef&)` submits `argument <: parameter.upper` for each
pair of the node's substitution (whose weak parameter reference locks),
and nothing else. -/
theorem C8_lookupref_constraints (subs : List (Option TypeParam × Ty)) :
    (∀ (param : TypeParam) (arg : Ty), (some param, arg) ∈ subs →
      Ev.constraintC arg param.upper ∈ postLookupRef subs)
    ∧ postLookupRef subs =
        subs.filterMap (fun p => p.1.map fun param => Ev.constraintC p.2 param.upper) := by
  have heq : postLookupRef subs =
      subs.filterMap (fun p => p.1.map fun param => Ev.constraintC p.2 param.upper) := by
    simpa [postLookupRef] using postLookupRef_foldl subs []
  refine ⟨?_, heq⟩
  intro param arg hmem
  rw [heq]
  exact List.mem_filterMap.mpr ⟨(some param, arg), hmem, rfl⟩

/-- Witness for C8 at a one-pair substitution. -/
theorem C8_lookupref_constraints_witness :
    ((some (⟨Ty.immT⟩ : TypeParam), Ty.mutT)) ∈
      [((some (⟨Ty.immT⟩ : TypeParam)), Ty.mutT)]
    ∧ Ev.constraintC Ty.mutT Ty.immT ∈
      postLookupRef [(some ⟨Ty.immT⟩, Ty.mutT)] :=
  ⟨List.mem_singleton.mpr rfl,
    (C8_lookupref_constraints [(some ⟨Ty.immT⟩, Ty.mutT)]).1 ⟨Ty.immT⟩ Ty.mutT
      (List.mem_singleton.mpr rfl)⟩

/-- C6: a `Ref` under an `Oftype` parent, or standing as the left child
of an `Assign`, never triggers the use-before-assignment diagnostic; in
every other position the diagnostic is recorded exactly when the local's
`assigned` flag is false. -/
theorem C6_ref_assignment_check (env : Env) (parentKind : Kind)
    (isAssignLeft : Bool) (assignLhsTy lambdaResult : Ty) (l : LocalInfo) :
    (parentKind = .oftypeK ∨ (parentKind = .assignK ∧ isAssignLeft = true) →
      Ev.err "Variable used before assignment" ∉
        postRef env parentKind isAssignLeft assignLhsTy lambdaResult l)
    ∧ (parentKind ≠ .oftypeK →
      ¬(parentKind = .assignK ∧ isAssignLeft = true) →
      (Ev.err "Variable used before assignment" ∈
          postRef env parentKind isAssignLeft assignLhsTy lambdaResult l
        ↔ l.assigned = false)) := by
  constructor
  · rintro (h | ⟨h1, h2⟩) hmem
    · simp [postRef, h] at hmem
    · simp [postRef, h1, h2] at hmem
  · intro hno hnand
    cases parentKind <;>
      first
        | exact absurd rfl hno
        | · have hleft : isAssignLeft = false := by
              by_contra hcon
              exact hnand ⟨rfl, by simpa using hcon⟩
            subst hleft
            cases hA : l.assigned <;>
              simp [postRef, hA]
        | · cases hA : l.assigned <;>
              cases hS : env.sub l.ty lambdaResult <;>
                simp [postRef, hA, hS]

/-- Witness for C6: a `Ref` under a `Throw` parent whose local is
unassigned triggers the diagnostic. -/
theorem C6_ref_assignment_check_witness :
    Kind.throwK ≠ Kind.oftypeK
    ∧ Ev.err "Variable used before assignment" ∈
      postRef envStat .throwK false Ty.immT Ty.immT ⟨.kLet, .immT, false⟩ :=
  ⟨by simp,
    ((C6_ref_assignment_check envStat .throwK false Ty.immT Ty.immT
          ⟨.kLet, .immT, false⟩).2 (by simp) (by simp)).mpr rfl⟩

/-- The static-dispatch tail always queries `lookup.typeref` and yields
one of its three outcomes: the not-found diagnostic, the
not-a-function diagnostic, or the `find <: call` constraint. -/
theorem staticSelect_props (env : Env) (tn : List Location) (call : FnTy) :
    Ev.typerefQ tn ∈ staticSelect env tn call
    ∧ (env.typerefL tn = none →
        Ev.err "Couldn't find this function." ∈ staticSelect env tn call)
    ∧ (∀ f, env.typerefL tn = some f → f.kind ≠ .lookupRefK →
        Ev.err ("Expected a function but found " ++ kindname f.kind) ∈
          staticSelect env tn call)
    ∧ (∀ f, env.typerefL tn = some f → f.kind = .lookupRefK →
        Ev.constraintC f.ty call.toTy ∈ staticSelect env tn call) := by
  refine ⟨?_, ?_, ?_, ?_⟩
  · rcases hT : env.typerefL tn with _ | f
    · simp [staticSelect, hT]
    · by_cases hk : f.kind = Kind.lookupRefK <;> simp [staticSelect, hT, hk]
  · intro hT
    simp [staticSelect, hT]
  · intro f hT hk
    simp [staticSelect, hT, hk]
  · intro f hT hk
    simp [staticSelect, hT, hk]

/-- The static-dispatch tail never queries `subtype.dynamic`. -/
theorem staticSelect_no_dynamic (env : Env) (tn : List Location) (call : FnTy)
    (cands : List Found) (c : FnTy) :
    Ev.dynamicQ cands c ∉ staticSelect env tn call := by
  rcases hT : env.typerefL tn with _ | f
  · simp [staticSelect, hT]
  · by_cases hk : f.kind = Kind.lookupRefK <;> simp [staticSelect, hT, hk]

/-- C2: dynamic dispatch is attempted exactly when the built call type
has an argument side and the typeref is a single unqualified name; when
it is not attempted, or `subtype.dynamic` answers false, static dispatch
runs: a failed `lookup.typeref` records "Couldn't find this function.", a
non-`LookupRef` result records "Expected a function but found ...", and
otherwise `find <: call` is submitted to the solver. -/
theorem C2_select_dispatch (env : Env) (g : Location → Ty) (lhsTy : Ty)
    (sel : Select) :
    ((∃ cands c, Ev.dynamicQ cands c ∈ (postSelect env g lhsTy sel).2) ↔
      ((call_type g lhsTy sel.expr sel.args).left.isSome = true
        ∧ sel.typenames.length = 1))
    ∧ ((∀ cl name,
          (call_type g lhsTy sel.expr sel.args).left = some cl →
          sel.typenames = [name] →
          env.dynamicOk (env.member (receiver_type cl) name)
              (call_type g lhsTy sel.expr sel.args) = false) →
        Ev.typerefQ sel.typenames ∈ (postSelect env g lhsTy sel).2
        ∧ (env.typerefL sel.typenames = none →
            Ev.err "Couldn't find this function." ∈ (postSelect env g lhsTy sel).2)
        ∧ (∀ f, env.typerefL sel.typenames = some f → f.kind ≠ .lookupRefK →
            Ev.err ("Expected a function but found " ++ kindname f.kind) ∈
              (postSelect env g lhsTy sel).2)
        ∧ (∀ f, env.typerefL sel.typenames = some f → f.kind = .lookupRefK →
            Ev.constraintC f.ty (call_type g lhsTy sel.expr sel.args).toTy ∈
              (postSelect env g lhsTy sel).2)) := by
  have hprops :=
    staticSelect_props env sel.typenames (call_type g lhsTy sel.expr sel.args)
  rcases hL : (call_type g lhsTy sel.expr sel.args).left with _ | cl
  · -- no argument side: dynamic dispatch cannot be attempted
    have htr : (postSelect env g lhsTy sel).2 =
        staticSelect env sel.typenames (call_type g lhsTy sel.expr sel.args) := by
      simp [postSelect, hL]
    constructor
    · constructor
      · rintro ⟨cands, c, hmem⟩
        rw [htr] at hmem
        exact absurd hmem (staticSelect_no_dynamic env _ _ cands c)
      · rintro ⟨hsome, -⟩
        simp at hsome
    · intro _
      rw [htr]
      exact hprops
  · rcases htn : sel.typenames with _ | ⟨name, _ | ⟨name2, rest⟩⟩
    · -- qualified path of zero names: static only
      rw [htn] at hprops
      have htr : (postSelect env g lhsTy sel).2 =
          staticSelect env [] (call_type g lhsTy sel.expr sel.args) := by
        simp [postSelect, hL, htn]
      constructor
      · constructor
        · rintro ⟨cands, c, hmem⟩
          rw [htr] at hmem
          exact absurd hmem (staticSelect_no_dynamic env _ _ cands c)
        · rintro ⟨-, hlen⟩
          simp at hlen
      · intro _
        rw [htr]
        exact hprops
    · -- single unqualified name: dynamic dispatch is attempted
      rw [htn] at hprops
      rcases hD : env.dynamicOk (env.member (receiver_type cl) name)
          (call_type g lhsTy sel.expr sel.args) with _ | _
      · -- subtype.dynamic fails: fall through to static dispatch
        have htr : (postSelect env g lhsTy sel).2 =
            [Ev.memberQ (receiver_type cl) name,
             Ev.dynamicQ (env.member (receiver_type cl) name)
               (call_type g lhsTy sel.expr sel.args)] ++
              staticSelect env [name] (call_type g lhsTy sel.expr sel.args) := by
          simp [postSelect, hL, htn, hD]
        constructor
        · constructor
          · intro _
            exact ⟨rfl, rfl⟩
          · intro _
            refine ⟨env.member (receiver_type cl) name,
              call_type g lhsTy sel.expr sel.args, ?_⟩
            rw [htr]
            simp
        · intro _
          refine ⟨?_, ?_, ?_, ?_⟩
          · rw [htr]
            exact List.mem_append_right _ hprops.1
          · intro hT
            rw [htr]
            exact List.mem_append_right _ (hprops.2.1 hT)
          · intro f hT hk
            rw [htr]
            exact List.mem_append_right _ (hprops.2.2.1 f hT hk)
          · intro f hT hk
            rw [htr]
            exact List.mem_append_right _ (hprops.2.2.2 f hT hk)
      · -- subtype.dynamic succeeds: return
        have htr : (postSelect env g lhsTy sel).2 =
            [Ev.memberQ (receiver_type cl) name,
             Ev.dynamicQ (env.member (receiver_type cl) name)
               (call_type g lhsTy sel.expr sel.args)] := by
          simp [postSelect, hL, htn, hD]
        constructor
        · constructor
          · intro _
            exact ⟨rfl, rfl⟩
          · intro _
            refine ⟨env.member (receiver_type cl) name,
              call_type g lhsTy sel.expr sel.args, ?_⟩
            rw [htr]
            simp
        · intro hFail
          simp [hFail cl name rfl rfl] at hD
    · -- qualified path of several names: static only
      rw [htn] at hprops
      have htr : (postSelect env g lhsTy sel).2 =
          staticSelect env (name :: name2 :: rest)
            (call_type g lhsTy sel.expr sel.args) := by
        simp [postSelect, hL, htn]
      constructor
      · constructor
        · rintro ⟨cands, c, hmem⟩
          rw [htr] at hmem
          exact absurd hmem (staticSelect_no_dynamic env _ _ cands c)
        · rintro ⟨-, hlen⟩
          simp at hlen
      · intro _
        rw [htr]
        exact hprops

/-- Witness for C2: with a two-segment typeref dynamic dispatch is never
attempted, and with nothing resolvable statically the not-found
diagnostic is recorded. -/
theorem C2_select_dispatch_witness :
    Ev.err "Couldn't find this function." ∈
      (postSelect envStat gImm Ty.immT
        { typenames := ["A", "f"], expr := some "x", args := none,
          dispatch := none }).2 :=
  (((C2_select_dispatch envStat gImm Ty.immT
        { typenames := ["A", "f"], expr := some "x", args := none,
          dispatch := none }).2
      (fun _ _ _ h => by simp at h)).2.1) rfl

/-- C1: the source never rewrites a `Select` node as static or dynamic
dispatch — both rewrites are TODO comments in `post(Select&)` — so the
node comes back unchanged from the handler, and even on an input where
`subtype.dynamic` succeeds the dispatch annotation stays absent instead
of being marked dynamic. -/
theorem C1_select_never_annotated :
    (∀ (env : Env) (g : Location → Ty) (lhsTy : Ty) (sel : Select),
      (postSelect env g lhsTy sel).1 = sel)
    ∧ envDyn.dynamicOk (envDyn.member (receiver_type (gImm "x")) "f")
        (call_type gImm Ty.immT selFx.expr selFx.args) = true
    ∧ (postSelect envDyn gImm Ty.immT selFx).1.dispatch = none := by
  refine ⟨?_, rfl, rfl⟩
  intro env g lhsTy sel
  simp only [postSelect]
  split <;> rfl

/-- The visit count of an empty trace. -/
theorem visitCount_nil : visitCount [] = 0 := rfl

/-- The visit count distributes over concatenation. -/
theorem visitCount_append (a b : List Ev) :
    visitCount (a ++ b) = visitCount a + visitCount b := by
  simp [visitCount, List.countP_append]

/-- A single visit marker counts one. -/
theorem visitCount_visit_singleton (k : Kind) : visitCount [Ev.visit k] = 1 := rfl

/-- No `visit` marker occurs in the events of `post(Ref&)`. -/
theorem visitCount_postRef (env : Env) (pk : Kind) (b : Bool) (t1 t2 : Ty)
    (l : LocalInfo) : visitCount (postRef env pk b t1 t2 l) = 0 := by
  unfold postRef
  split_ifs <;> simp [visitCount]

/-- No `visit` marker occurs in the events of `post(Int&)`. -/
theorem visitCount_postInt (tl : List Location → Option Found) (lhsTy : Ty) :
    visitCount (postInt tl lhsTy) = 0 := by
  unfold postInt
  rcases make_constant_type tl "Integer" with _ | t <;> simp [visitCount]

/-- No `visit` marker occurs in the events of `post(Float&)`. -/
theorem visitCount_postFloat (tl : List Location → Option Found) (lhsTy : Ty) :
    visitCount (postFloat tl lhsTy) = 0 := by
  unfold postFloat
  rcases make_constant_type tl "Float" with _ | t <;> simp [visitCount]

/-- No `visit` marker occurs in the events of `post(Bool&)`. -/
theorem visitCount_postBool (tl : List Location → Option Found) (lhsTy : Ty) :
    visitCount (postBool tl lhsTy) = 0 := by
  unfold postBool
  rcases make_constant_type tl "Bool" with _ | t <;> simp [visitCount]

/-- No `visit` marker occurs in the events of `post(Free&)`. -/
theorem visitCount_postFree (l : LocalInfo) : visitCount (postFree l) = 0 := by
  unfold postFree
  split_ifs <;> simp [visitCount]

/-- No `visit` marker occurs in the events of `post(Assign&)`. -/
theorem visitCount_postAssign (l : LocalInfo) :
    visitCount (postAssign l).2 = 0 := by
  unfold postAssign
  split_ifs <;> simp [visitCount]

/-- No `visit` marker occurs in the events of `post(Oftype&)`. -/
theorem visitCount_postOftype (t1 t2 : Ty) :
    visitCount (postOftype t1 t2) = 0 := rfl

/-- No `visit` marker occurs in the events of `post(Throw&)`. -/
theorem visitCount_postThrow (t1 t2 : Ty) :
    visitCount (postThrow t1 t2) = 0 := rfl

/-- No `visit` marker occurs in the events of `post(Lambda&)`. -/
theorem visitCount_postLambda (env : Env) (pk : Kind) (t1 t2 t3 : Ty) :
    visitCount (postLambda env pk t1 t2 t3) = 0 := by
  unfold postLambda
  cases pk <;> simp [visitCount]

/-- No `visit` marker occurs in the events of `post(LookupRef&)`. -/
theorem visitCount_postLookupRef (subs : List (Option TypeParam × Ty)) :
    visitCount (postLookupRef subs) = 0 := by
  rw [show postLookupRef subs =
      subs.filterMap (fun p => p.1.map fun param => Ev.constraintC p.2 param.upper) from by
    simpa [postLookupRef] using postLookupRef_foldl subs []]
  induction subs with
  | nil => rfl
  | cons p rest ih =>
      cases h : p.1 with
      | none => simpa [List.filterMap_cons, h] using ih
      | some param =>
          simpa [List.filterMap_cons, h, visitCount, List.countP_cons] using ih

/-- No `visit` marker occurs in the events of the static-dispatch
tail. -/
theorem visitCount_staticSelect (env : Env) (tn : List Location) (call : FnTy) :
    visitCount (staticSelect env tn call) = 0 := by
  unfold staticSelect
  rcases env.typerefL tn with _ | f
  · simp [visitCount]
  · by_cases hk : f.kind = Kind.lookupRefK <;> simp [hk, visitCount]

/-- No `visit` marker occurs in the events of `post(Select&)`. -/
theorem visitCount_postSelect (env : Env) (g : Location → Ty) (lhsTy : Ty)
    (sel : Select) : visitCount (postSelect env g lhsTy sel).2 = 0 := by
  have hs := visitCount_staticSelect env sel.typenames
    (call_type g lhsTy sel.expr sel.args)
  rcases hL : (call_type g lhsTy sel.expr sel.args).left with _ | cl
  · have htr : (postSelect env g lhsTy sel).2 =
        staticSelect env sel.typenames (call_type g lhsTy sel.expr sel.args) := by
      simp [postSelect, hL]
    rw [htr, hs]
  · rcases htn : sel.typenames with _ | ⟨name, _ | ⟨name2, rest⟩⟩ <;>
      rw [htn] at hs
    · have htr : (postSelect env g lhsTy sel).2 =
          staticSelect env [] (call_type g lhsTy sel.expr sel.args) := by
        simp [postSelect, hL, htn]
      rw [htr, hs]
    · rcases hD : env.dynamicOk (env.member (receiver_type cl) name)
          (call_type g lhsTy sel.expr sel.args) with _ | _
      · have htr : (postSelect env g lhsTy sel).2 =
            [Ev.memberQ (receiver_type cl) name,
             Ev.dynamicQ (env.member (receiver_type cl) name)
               (call_type g lhsTy sel.expr sel.args)] ++
              staticSelect env [name] (call_type g lhsTy sel.expr sel.args) := by
          simp [postSelect, hL, htn, hD]
        rw [htr, visitCount_append, hs]
        rfl
      · have htr : (postSelect env g lhsTy sel).2 =
            [Ev.memberQ (receiver_type cl) name,
             Ev.dynamicQ (env.member (receiver_type cl) name)
               (call_type g lhsTy sel.expr sel.args)] := by
          simp [postSelect, hL, htn, hD]
        rw [htr]
        rfl
    · have htr : (postSelect env g lhsTy sel).2 =
          staticSelect env (name :: name2 :: rest)
            (call_type g lhsTy sel.expr sel.args) := by
        simp [postSelect, hL, htn]
      rw [htr, hs]

/-- The `Ref` nodes standing for a `Tuple`'s operands contribute one
visit each. -/
theorem visitCount_tuple_refs (env : Env) (t1 t2 : Ty)
    (L : Location → LocalInfo) (elems : List Location) :
    visitCount (elems.flatMap fun e =>
      [Ev.visit .refK] ++ postRef env .tupleK false t1 t2 (L e)) =
      elems.length := by
  induction elems with
  | nil => rfl
  | cons e rest ih =>
      rw [List.flatMap_cons, visitCount_append, visitCount_append,
        visitCount_visit_singleton, visitCount_postRef, ih]
      simp [Nat.add_comm]

mutual

/-- The traversal visits every node of `a` exactly once, whatever the
oracles answer and whatever errors accumulate. -/
theorem inferA_visits (env : Env) (ctx : Ctx) (L : Location → LocalInfo) :
    (a : Ast) → visitCount (inferA env ctx L a).2 = astSize a
  | .assignA leftLoc right => by
      have ih := inferA_visits env
        { parentKind := .assignK, isAssignLeft := false,
          assignLhs := some leftLoc, lambdaResult := ctx.lambdaResult } L right
      simp only [inferA, astSize, visitCount_append, visitCount_visit_singleton,
        visitCount_postRef, visitCount_postAssign, ih]
      omega
  | .refA name => by
      simp only [inferA, astSize, visitCount_append, visitCount_visit_singleton,
        visitCount_postRef]
  | .intA => by
      simp only [inferA, astSize, visitCount_append, visitCount_visit_singleton,
        visitCount_postInt]
  | .floatA => by
      simp only [inferA, astSize, visitCount_append, visitCount_visit_singleton,
        visitCount_postFloat]
  | .boolA => by
      simp only [inferA, astSize, visitCount_append, visitCount_visit_singleton,
        visitCount_postBool]
  | .oftypeA exprLoc ty => by
      simp only [inferA, astSize, visitCount_append, visitCount_visit_singleton,
        visitCount_postRef, visitCount_postOftype]
  | .selectA sel => by
      simp only [inferA, astSize, visitCount_append, visitCount_visit_singleton,
        visitCount_postSelect]
  | .lambdaA result body => by
      have ih := inferL_visits env
        { parentKind := .lambdaK, isAssignLeft := false,
          assignLhs := ctx.assignLhs, lambdaResult := result } L body
      simp only [inferA, astSize, visitCount_append, visitCount_visit_singleton,
        visitCount_postLambda, ih]
      omega
  | .throwA exprLoc => by
      simp only [inferA, astSize, visitCount_append, visitCount_visit_singleton,
        visitCount_postRef, visitCount_postThrow]
  | .freeA name => by
      simp only [inferA, astSize, visitCount_append, visitCount_visit_singleton,
        visitCount_postFree]
  | .tupleA elems => by
      simp only [inferA, astSize, visitCount_append, visitCount_visit_singleton,
        visitCount_tuple_refs]
      omega
  | .lookupRefA subs => by
      simp only [inferA, astSize, visitCount_append, visitCount_visit_singleton,
        visitCount_postLookupRef]

/-- The traversal visits every node of a node sequence exactly once. -/
theorem inferL_visits (env : Env) (ctx : Ctx) (L : Location → LocalInfo) :
    (as : AstList) → visitCount (inferL env ctx L as).2 = astListSize as
  | .anil => by simp only [inferL, astListSize, visitCount_nil]
  | .acons a rest => by
      have iha := inferA_visits env ctx L a
      have ihr := inferL_visits env ctx (inferA env ctx L a).1 rest
      simp only [inferL, astListSize, visitCount_append, iha, ihr]

end

/-- C4: `run` returns true exactly when the visitor recorded no
diagnostics and the solver recorded none (is consistent); diagnostics
only accumulate in the trace — nothing is thrown — and the traversal
still visits every node, whatever errors occur. -/
theorem C4_run_accumulates (env : Env) (L : Location → LocalInfo) (ast : Ast) :
    (run env L ast = true ↔
      (errorsOf (inferTrace env L ast) = []
        ∧ solverErrors env (inferTrace env L ast) = []))
    ∧ visitCount (inferTrace env L ast) = astSize ast := by
  constructor
  · simp [run, List.isEmpty_iff]
  · simpa [inferTrace] using inferA_visits env initCtx L ast

/-- C9: the well-formedness pass records no diagnostic for any node — the
`InferType` report is commented out — so `wellformed` returns true for
every AST. -/
theorem C9_wellformed_no_diagnostic (nodes : List Kind) :
    wfTrace nodes = [] ∧ wellformed nodes = true := by
  have h : wfTrace nodes = [] := by
    induction nodes with
    | nil => rfl
    | cons k rest ih =>
        have hk : wfPost k = [] := by cases k <;> rfl
        simpa [wfTrace, hk] using ih
  exact ⟨h, by simp [wellformed, h, errorsOf]⟩

end Verona
